import Mathlib

/-!
Shallow embedding of the `projectapi` service (files `projectapi/main.py` and
`projectapi/schema.py`).  The relational storage layer (`db.py`) and the
external collaborators (`utils/user.py`) are not part of the sources; the
storage state is modelled as explicit lists of rows and the collaborators as a
record of functions.  HTTP status codes are modelled by the `ApiError`
taxonomy: 401 → `unauthorized`, 403 → `forbidden`, 404 → `notFound`,
429 → `conflict`.  A raised `HTTPException` inside `db.session_scope` rolls the
transaction back, so every handler is embedded as a function returning
`Except ApiError` of its success value: on an error the state is unchanged.
-/

namespace db

/-- Row of the `Project` table (`db.py` columns, as read through
`schema.Project.from_db` and the handlers in `main.py`): metadata columns,
the ten SNS columns, the three role relations `members`, `announce_users`,
`admin_users` (lists of usernames, in insertion order) and the `is_active`
flag. -/
structure Project where
  id : Nat
  title : String
  subtitle : Option String
  bg_image : Option String
  description : String
  skilltags : List Nat
  twitter : Option String
  instagram : Option String
  github : Option String
  youtube : Option String
  vimeo : Option String
  facebook : Option String
  tiktok : Option String
  linkedin : Option String
  wantedly : Option String
  url : Option String
  members : List String
  announce_users : List String
  admin_users : List String
  is_active : Bool
deriving DecidableEq, Repr

/-- Row of the `Like` table: `db.Like(username=..., project_id=...)`. -/
structure Like where
  username : String
  project_id : Nat
deriving DecidableEq, Repr

/-- The relational store: project rows (with their role relations inlined),
like rows, and the autoincrement counter for project ids. -/
structure State where
  projects : List Project
  likes : List Like
  next_id : Nat
deriving DecidableEq, Repr

/-- Modelled from the spec: `db.py` is not among the sources.  `db.Project.get`
is the project lookup used by every handler; per the spec a logically deleted
project (`is_active = false`) is invisible to it ("fails not-found if project
missing/inactive", "the project becomes invisible to `GetProject`"). -/
def Project.get (st : State) (id : Nat) : Option Project :=
  st.projects.find? (fun p => p.id == id && p.is_active)

/-- Commit a mutation of the (active) project row with the given id, leaving
every other row unchanged. -/
def State.modifyProject (st : State) (id : Nat) (f : Project → Project) : State :=
  { st with projects := st.projects.map (fun p => if p.id == id && p.is_active then f p else p) }

end db

namespace schema

/-- `schema.Sns`: the ten optional social-network fields. -/
structure Sns where
  twitter : Option String
  instagram : Option String
  github : Option String
  youtube : Option String
  vimeo : Option String
  facebook : Option String
  tiktok : Option String
  linkedin : Option String
  wantedly : Option String
  url : Option String
deriving DecidableEq, Repr

/-- `schema.Project`: the view returned to callers, also the payload shape
consumed by `Project.update`. -/
structure Project where
  id : Nat
  title : String
  subtitle : Option String
  bg_image : Option String
  description : String
  members : List String
  announce_users : List String
  admin_users : List String
  likes : Nat
  sns : Sns
  skilltags : List Nat
deriving DecidableEq, Repr

/-- `schema.Project.from_db`: build the view of a project row.  The like count
is the cardinality of the like facts for the project (`len(db_proj.likes)`),
read from the store. -/
def Project.from_db (st : db.State) (p : db.Project) : Project :=
  { id := p.id
    title := p.title
    subtitle := p.subtitle
    bg_image := p.bg_image
    description := p.description
    members := p.members
    announce_users := p.announce_users
    admin_users := p.admin_users
    likes := (st.likes.filter (fun l => l.project_id == p.id)).length
    sns := { twitter := p.twitter, instagram := p.instagram, github := p.github
             youtube := p.youtube, vimeo := p.vimeo, facebook := p.facebook
             tiktok := p.tiktok, linkedin := p.linkedin, wantedly := p.wantedly
             url := p.url }
    skilltags := p.skilltags }

/-- The row mutation of `schema.Project.update` (schema.py lines 67-82):
replace title, subtitle, bg_image, description, skilltags, **members** and the
ten SNS columns with the payload's values.  Note that the source line
`p.members = self.members` overwrites the member relation, while
`announce_users`, `admin_users` and the likes are not touched. -/
def Project.applyUpdate (self : Project) (p : db.Project) : db.Project :=
  { p with
    title := self.title
    subtitle := self.subtitle
    bg_image := self.bg_image
    description := self.description
    skilltags := self.skilltags
    members := self.members
    twitter := self.sns.twitter
    instagram := self.sns.instagram
    github := self.sns.github
    youtube := self.sns.youtube
    vimeo := self.sns.vimeo
    facebook := self.sns.facebook
    tiktok := self.sns.tiktok
    linkedin := self.sns.linkedin
    wantedly := self.sns.wantedly
    url := self.sns.url }

/-- `schema.Project.update`, continued: look the row up, commit the mutation
above, and return the refreshed view of the mutated row. -/
def Project.update (self : Project) (st : db.State) : Option (Project × db.State) :=
  match db.Project.get st self.id with
  | none => none
  | some p =>
    let st' := st.modifyProject self.id self.applyUpdate
    some (Project.from_db st' (self.applyUpdate p), st')

/-- `schema.ProjectCreate`: payload of project creation. -/
structure ProjectCreate where
  title : String
  subtitle : Option String
  bg_image : Option String
  description : String
  sns : Sns
  skilltags : List Nat
deriving DecidableEq, Repr

/-- `schema.ProjectCreate.create` (schema.py lines 96-135): insert a fresh
project row (metadata and SNS columns from the payload, fresh autoincrement
id, active), then insert the creating user into the member, announce and admin
relations of that row, commit, and return the view.  `is_active` defaults to
true for a fresh row (`db.py` is not among the sources; the spec has the
project live until `Deactivate`). -/
def ProjectCreate.newRow (self : ProjectCreate) (username : String) (st : db.State) :
    db.Project :=
    { id := st.next_id
      title := self.title
      subtitle := self.subtitle
      bg_image := self.bg_image
      description := self.description
      skilltags := self.skilltags
      twitter := self.sns.twitter
      instagram := self.sns.instagram
      github := self.sns.github
      youtube := self.sns.youtube
      vimeo := self.sns.vimeo
      facebook := self.sns.facebook
      tiktok := self.sns.tiktok
      linkedin := self.sns.linkedin
      wantedly := self.sns.wantedly
      url := self.sns.url
      members := [username]
      announce_users := [username]
      admin_users := [username]
      is_active := true }

/-- `schema.ProjectCreate.create`, continued: append the new row, return its
view. -/
def ProjectCreate.create (self : ProjectCreate) (username : String) (st : db.State) :
    Project × db.State :=
  let p : db.Project := self.newRow username st
  let st' : db.State :=
    { projects := st.projects ++ [p], likes := st.likes, next_id := st.next_id + 1 }
  (Project.from_db st' p, st')

/-- Modelled from the spec: `schema.MemberType` is not among the sources; the
spec fixes the tier to one of MEMBER, ANNOUNCE, ADMIN. -/
inductive MemberType where
  | MEMBER
  | ANNOUNCE
  | ADMIN
deriving DecidableEq, Repr

/-- Modelled from the spec: `schema.ProjectJoin` is not among the sources; the
join payload carries the target username and the requested tier. -/
structure ProjectJoin where
  username : String
  type : MemberType
deriving DecidableEq, Repr

end schema

/-- The error taxonomy of the handlers, one constructor per HTTP status the
handlers raise: 401 `unauthorized`, 403 `forbidden`, 404 `notFound`,
429 `conflict` (the spec's `Conflict` outcome: already joined / already liked /
not liked). -/
inductive ApiError where
  | unauthorized
  | forbidden
  | notFound
  | conflict
deriving DecidableEq, Repr

/-- The external collaborators of `utils/user.py` (not among the sources, used
only through these three calls): `user.auth` resolves a cookie token to a
username, `user.exist` checks that a username is known, `user.tag_exist`
checks that a skill-tag id is known. -/
structure Env where
  auth : String → Option String
  exist : String → Bool
  tag_exist : Nat → Bool

/-- State reached after a handler returning only a new store: the store it
returned on success, the unchanged store on a rolled-back error. -/
def afterState (st : db.State) : Except ApiError db.State → db.State
  | .ok st' => st'
  | .error _ => st

/-- State reached after a handler returning a view and a new store. -/
def stepState (st : db.State) : Except ApiError (schema.Project × db.State) → db.State
  | .ok r => r.2
  | .error _ => st

/-- Whether a handler call succeeded. -/
def isOk : Except ApiError α → Bool
  | .ok _ => true
  | .error _ => false

namespace main

/-- `create_project` (main.py lines 65-83): authenticate, reject when any
payload skill tag fails the existence check (`if False in [user.tag_exist(t)
for t in project.skilltags]`), otherwise run `ProjectCreate.create`. -/
def create_project (env : Env) (project : schema.ProjectCreate)
    (token : Option String) (st : db.State) :
    Except ApiError (schema.Project × db.State) :=
  match token with
  | none => .error .unauthorized
  | some t =>
    match env.auth t with
    | none => .error .unauthorized
    | some username =>
      if project.skilltags.any (fun tg => env.tag_exist tg == false) then
        .error .notFound
      else
        .ok (project.create username st)

/-- `update_project` (main.py lines 103-136): authenticate, look the project
up, require the acting user in its admin relation, reject unknown skill tags,
then run `schema.Project.update` on the payload. -/
def update_project (env : Env) (project_update : schema.Project)
    (token : Option String) (st : db.State) :
    Except ApiError (schema.Project × db.State) :=
  match token with
  | none => .error .unauthorized
  | some t =>
    match env.auth t with
    | none => .error .unauthorized
    | some username =>
      match db.Project.get st project_update.id with
      | none => .error .notFound
      | some p =>
        if username ∈ p.admin_users then
          if project_update.skilltags.any (fun tg => env.tag_exist tg == false) then
            .error .notFound
          else
            match project_update.update st with
            | none => .error .notFound
            | some r => .ok r
        else .error .forbidden

/-- `delete_project` (main.py lines 157-173): look the project up, then
authenticate, require admin, and commit `is_active = False`. -/
def delete_project (env : Env) (id : Nat) (token : Option String) (st : db.State) :
    Except ApiError db.State :=
  match db.Project.get st id with
  | none => .error .notFound
  | some p =>
    match token with
    | none => .error .unauthorized
    | some t =>
      match env.auth t with
      | none => .error .unauthorized
      | some username =>
        if username ∈ p.admin_users then
          .ok (st.modifyProject id (fun q => { q with is_active := false }))
        else .error .forbidden

/-- `like` (main.py lines 220-244): authenticate, look the project up (404 when
missing/inactive), 429 when a like fact for (username, project) already
exists, otherwise insert `db.Like(username=username, project_id=p.id)`. -/
def like (env : Env) (id : Nat) (token : Option String) (st : db.State) :
    Except ApiError db.State :=
  match token with
  | none => .error .unauthorized
  | some t =>
    match env.auth t with
    | none => .error .unauthorized
    | some username =>
      match db.Project.get st id with
      | none => .error .notFound
      | some p =>
        if 0 < (st.likes.filter (fun l => l.username == username && l.project_id == id)).length
        then .error .conflict
        else .ok { st with likes := st.likes ++ [{ username := username, project_id := p.id }] }

/-- `unlike` (main.py lines 266-286): authenticate, then 429 when no like fact
for (username, project) exists, otherwise delete the matching facts.  The
handler never looks the project up. -/
def unlike (env : Env) (id : Nat) (token : Option String) (st : db.State) :
    Except ApiError db.State :=
  match token with
  | none => .error .unauthorized
  | some t =>
    match env.auth t with
    | none => .error .unauthorized
    | some username =>
      if (st.likes.filter (fun l => l.username == username && l.project_id == id)).length < 1
      then .error .conflict
      else .ok { st with
                 likes := st.likes.filter (fun l => !(l.username == username && l.project_id == id)) }

/-- The list `all_type` of main.py lines 351-355. -/
def all_type : List schema.MemberType :=
  [schema.MemberType.MEMBER, schema.MemberType.ANNOUNCE, schema.MemberType.ADMIN]

/-- The insert-into-role-relation step of `join_member`: add the username to
the relation unless it is already present (`if project_join.username not in
mem_list: s.add(...)`, new rows appended in insertion order). -/
def insertIfAbsent (u : String) (l : List String) : List String :=
  if u ∈ l then l else l ++ [u]

/-- The row mutation committed by a successful `join_member` (main.py lines
350-384): members for every tier, announce_users for ANNOUNCE and ADMIN,
admin_users for ADMIN only, each insertion deduplicated. -/
def joinUpd (pj : schema.ProjectJoin) (p : db.Project) : db.Project :=
  { p with
    members :=
      if pj.type ∈ all_type then insertIfAbsent pj.username p.members
      else p.members
    announce_users :=
      if pj.type ∈ all_type.drop 1 then insertIfAbsent pj.username p.announce_users
      else p.announce_users
    admin_users :=
      if pj.type ∈ all_type.drop 2 then insertIfAbsent pj.username p.admin_users
      else p.admin_users }

/-- The exact-tier "already joined?" test of main.py lines 339-348. -/
def alreadyJoined (pj : schema.ProjectJoin) (p : db.Project) : Bool :=
  match pj.type with
  | .MEMBER => p.members.contains pj.username
  | .ANNOUNCE => p.announce_users.contains pj.username
  | .ADMIN => p.admin_users.contains pj.username

/-- `join_member` (main.py lines 313-384): authenticate, 404 when the target
username is unknown or the project is missing/inactive, 403 unless the acting
user is in the admin relation, 429 when the target already holds exactly the
requested tier, otherwise commit the deduplicated tier insertions. -/
def join_member (env : Env) (proj_id : Nat) (project_join : schema.ProjectJoin)
    (token : Option String) (st : db.State) : Except ApiError db.State :=
  match token with
  | none => .error .unauthorized
  | some t =>
    match env.auth t with
    | none => .error .unauthorized
    | some username =>
      if env.exist project_join.username = false then .error .notFound
      else
        match db.Project.get st proj_id with
        | none => .error .notFound
        | some p =>
          if username ∈ p.admin_users then
            if alreadyJoined project_join p then .error .conflict
            else .ok (st.modifyProject proj_id (joinUpd project_join))
          else .error .forbidden

/-- `projects_of_user` (main.py lines 423-432): the views of the projects whose
member relation contains the username, restricted to active projects
(`if pu.project.is_active`). -/
def projects_of_user (username : String) (st : db.State) : List schema.Project :=
  (st.projects.filter (fun p => p.members.contains username && p.is_active)).map
    (schema.Project.from_db st)

end main

/-- Modelled from the spec: `schema.ProjectSearchResult` is not among the
sources.  Levenshtein edit distance between two character sequences, the
search ranking signal ("compute the Levenshtein edit distance between the
query and each active project's title").  `levGo f x` is the inner recursion
on the second string, taking the distance function of the first string's tail
as `f`. -/
def levGo (f : List Char → Nat) (x : Char) : List Char → Nat
  | [] => f [] + 1
  | y :: ys => if x = y then f ys else 1 + min (f (y :: ys)) (min (levGo f x ys) (f ys))

/-- Modelled from the spec, continued: the textbook Levenshtein recurrence.
With `f := levDistance xs`, `levGo f x ys` computes `levDistance (x :: xs) ys`:
the distance of two empty strings is 0, dropping to/from an empty string costs
its length, equal heads cost nothing, and otherwise one plus the cheapest of
deletion, insertion and substitution. -/
def levDistance : List Char → List Char → Nat
  | [], ys => ys.length
  | x :: xs, ys => levGo (levDistance xs) x ys

/-- Distance of a project's title from the query. -/
def schema.levD (title : String) (p : db.Project) : Nat :=
  levDistance title.toList p.title.toList

/-- The search ranking order: ascending distance, ties broken by project id
ascending ("sort ascending by distance; on ties, fall back to a stable,
deterministic secondary key (project id ascending)"). -/
def schema.rankKeyLe (title : String) (a b : db.Project) : Prop :=
  schema.levD title a < schema.levD title b ∨
    (schema.levD title a = schema.levD title b ∧ a.id ≤ b.id)

instance (title : String) : DecidableRel (schema.rankKeyLe title) := fun a b =>
  inferInstanceAs (Decidable (schema.levD title a < schema.levD title b ∨
    (schema.levD title a = schema.levD title b ∧ a.id ≤ b.id)))

instance (title : String) : IsTotal db.Project (schema.rankKeyLe title) where
  total a b := by
    rcases Nat.lt_trichotomy (schema.levD title a) (schema.levD title b) with h | h | h
    · exact Or.inl (Or.inl h)
    · rcases Nat.le_total a.id b.id with h' | h'
      · exact Or.inl (Or.inr ⟨h, h'⟩)
      · exact Or.inr (Or.inr ⟨h.symm, h'⟩)
    · exact Or.inr (Or.inl h)

instance (title : String) : IsTrans db.Project (schema.rankKeyLe title) where
  trans a b c hab hbc := by
    rcases hab with h1 | ⟨h1, h1'⟩ <;> rcases hbc with h2 | ⟨h2, h2'⟩
    · exact Or.inl (by omega)
    · exact Or.inl (by omega)
    · exact Or.inl (by omega)
    · exact Or.inr ⟨by omega, le_trans h1' h2'⟩

/-- The active projects, the population the search scans ("ranks all active
projects"). -/
def schema.searchActive (st : db.State) : List db.Project :=
  st.projects.filter (fun p => p.is_active)

/-- The active projects sorted by the ranking order. -/
def schema.searchRanked (title : String) (st : db.State) : List db.Project :=
  List.insertionSort (schema.rankKeyLe title) (schema.searchActive st)

/-- Modelled from the spec: `schema.ProjectSearchResult.search` is not among
the sources (main.py line 405 delegates to it).  Rank all active projects by
Levenshtein distance from the query, ascending, ties broken by project id
ascending, "then apply `offset` (skip) and `limit` (take) to the sorted
sequence", returning the views. -/
def schema.ProjectSearchResult.search (title : String) (limit offset : Nat) (st : db.State) :
    List schema.Project :=
  (((schema.searchRanked title st).drop offset).take limit).map (schema.Project.from_db st)

/-- Role inclusion for one project row: admin_users ⊆ announce_users ⊆
members. -/
def InvProject (p : db.Project) : Prop :=
  (∀ a ∈ p.admin_users, a ∈ p.announce_users) ∧ (∀ a ∈ p.announce_users, a ∈ p.members)

instance : DecidablePred InvProject := fun p =>
  inferInstanceAs (Decidable ((∀ a ∈ p.admin_users, a ∈ p.announce_users) ∧
    (∀ a ∈ p.announce_users, a ∈ p.members)))

/-- Role inclusion for every project row of the store. -/
def InvState (st : db.State) : Prop := ∀ p ∈ st.projects, InvProject p

instance : DecidablePred InvState := fun st =>
  inferInstanceAs (Decidable (∀ p ∈ st.projects, InvProject p))

/-- One successful-or-failed call of each state-mutating handler other than
`update_project`: project creation, join, like, unlike, logical deletion. -/
inductive Op where
  | create (pc : schema.ProjectCreate) (token : Option String)
  | join (proj_id : Nat) (pj : schema.ProjectJoin) (token : Option String)
  | like (id : Nat) (token : Option String)
  | unlike (id : Nat) (token : Option String)
  | deactivate (id : Nat) (token : Option String)

/-- Run one handler call against the store: the committed store on success,
the rolled-back (unchanged) store on an error. -/
def applyOp (env : Env) (op : Op) (st : db.State) : db.State :=
  match op with
  | .create pc tk => stepState st (main.create_project env pc tk st)
  | .join pid pj tk => afterState st (main.join_member env pid pj tk st)
  | .like id tk => afterState st (main.like env id tk st)
  | .unlike id tk => afterState st (main.unlike env id tk st)
  | .deactivate id tk => afterState st (main.delete_project env id tk st)

/-- Run a sequence of handler calls. -/
def applyOps (env : Env) (ops : List Op) (st : db.State) : db.State :=
  ops.foldl (fun s op => applyOp env op s) st

/-- The view component of a handler result, with a fallback for errors. -/
def viewOf (r : Except ApiError (schema.Project × db.State)) (d : schema.Project) :
    schema.Project :=
  match r with
  | .ok v => v.1
  | .error _ => d

/-- An SNS record with every field empty. -/
def sns0 : schema.Sns :=
  { twitter := none, instagram := none, github := none, youtube := none, vimeo := none
    facebook := none, tiktok := none, linkedin := none, wantedly := none, url := none }

/-- An active project row with the given id, title and role relations and
empty metadata, for concrete test stores. -/
def mkProj (id : Nat) (title : String) (ms ans ads : List String) : db.Project :=
  { id := id, title := title, subtitle := none, bg_image := none, description := ""
    skilltags := [], twitter := none, instagram := none, github := none, youtube := none
    vimeo := none, facebook := none, tiktok := none, linkedin := none, wantedly := none
    url := none, members := ms, announce_users := ans, admin_users := ads, is_active := true }

/-- Collaborators for concrete runs: every token resolves to user `a`, every
username and tag exists. -/
def env0 : Env :=
  { auth := fun _ => some "a", exist := fun _ => true, tag_exist := fun _ => true }

/-- Collaborators for concrete runs where no skill tag exists. -/
def envBad : Env :=
  { auth := fun _ => some "a", exist := fun _ => true, tag_exist := fun _ => false }

/-- The empty store. -/
def st0 : db.State := { projects := [], likes := [], next_id := 0 }

/-- A creation payload with no skill tags. -/
def pc0 : schema.ProjectCreate :=
  { title := "T", subtitle := none, bg_image := none, description := "d"
    sns := sns0, skilltags := [] }

/-- A creation payload referencing skill tag 1. -/
def pc8 : schema.ProjectCreate :=
  { title := "T", subtitle := none, bg_image := none, description := "d"
    sns := sns0, skilltags := [1] }

/-- Store after user `a` creates a project in the empty store. -/
def exC3st1 : db.State := stepState st0 (main.create_project env0 pc0 (some "tk") st0)

/-- An update payload for project 0 whose member list is empty. -/
def pu0 : schema.Project :=
  { id := 0, title := "T2", subtitle := none, bg_image := none, description := "d2"
    members := [], announce_users := [], admin_users := [], likes := 0
    sns := sns0, skilltags := [] }

/-- Store after the update with the empty member list. -/
def exC3st2 : db.State := stepState exC3st1 (main.update_project env0 pu0 (some "tk") exC3st1)

/-- A store holding one project whose only member/announcer/admin is `a`. -/
def stC5 : db.State := { projects := [mkProj 0 "T" ["a"] ["a"] ["a"]], likes := [], next_id := 1 }

/-- An update payload for project 0 whose member list is `["a", "b"]`. -/
def puC5 : schema.Project :=
  { id := 0, title := "T", subtitle := none, bg_image := none, description := "d"
    members := ["a", "b"], announce_users := [], admin_users := [], likes := 0
    sns := sns0, skilltags := [] }

/-- Result of the update with payload `puC5`. -/
def rC5 : Except ApiError (schema.Project × db.State) :=
  main.update_project env0 puC5 (some "tk") stC5

/-- A store holding one project administered by `a`, where `b` already holds
the member and announce tiers but not the admin tier. -/
def stC1 : db.State :=
  { projects := [mkProj 0 "T" ["a", "b"] ["a", "b"] ["a"]], likes := [], next_id := 1 }

/-- A store holding one project administered by `a` and one like by `a`. -/
def stC6 : db.State :=
  { projects := [mkProj 0 "T" ["a"] ["a"] ["a"]]
    likes := [{ username := "a", project_id := 0 }], next_id := 1 }

/-- The spec's search fixture: projects titled Foo, Foob, Bar. -/
def pFoo : db.Project := mkProj 0 "Foo" ["a"] ["a"] ["a"]

/-- Second project of the search fixture. -/
def pFoob : db.Project := mkProj 1 "Foob" ["a"] ["a"] ["a"]

/-- Third project of the search fixture. -/
def pBar : db.Project := mkProj 2 "Bar" ["a"] ["a"] ["a"]

/-- The search fixture store. -/
def stFoo : db.State := { projects := [pFoo, pFoob, pBar], likes := [], next_id := 3 }

theorem mem_insertIfAbsent {a u : String} {l : List String} :
    a ∈ main.insertIfAbsent u l ↔ a ∈ l ∨ a = u := by
  unfold main.insertIfAbsent
  split
  · constructor
    · exact Or.inl
    · rintro (h | rfl) <;> assumption
  · simp [List.mem_append]

theorem insertIfAbsent_of_mem {u : String} {l : List String} (h : u ∈ l) :
    main.insertIfAbsent u l = l := by
  simp [main.insertIfAbsent, h]

theorem insertIfAbsent_of_not_mem {u : String} {l : List String} (h : u ∉ l) :
    main.insertIfAbsent u l = l ++ [u] := by
  simp [main.insertIfAbsent, h]

theorem get_modifyProject (st : db.State) (id : Nat) (f : db.Project → db.Project)
    (hid : ∀ q, (f q).id = q.id) (hact : ∀ q, (f q).is_active = q.is_active) :
    db.Project.get (st.modifyProject id f) id = (db.Project.get st id).map f := by
  unfold db.Project.get db.State.modifyProject
  induction st.projects with
  | nil => rfl
  | cons a l ih =>
    by_cases h : (a.id == id && a.is_active) = true
    · simp [List.find?, h, hid, hact]
    · simp only [List.map_cons, List.find?]
      rw [if_neg h]
      simp only [h, Bool.false_eq_true, if_false] at *
      exact ih

theorem like_filter_pos_iff (likes : List db.Like) (u : String) (id : Nat) :
    0 < (likes.filter (fun l => l.username == u && l.project_id == id)).length ↔
      ({ username := u, project_id := id } : db.Like) ∈ likes := by
  induction likes with
  | nil => simp
  | cons a l ih =>
    by_cases h : (a.username == u && a.project_id == id) = true
    · have ha : a = { username := u, project_id := id } := by
        cases a
        simp only [Bool.and_eq_true, beq_iff_eq] at h
        simp [h.1, h.2]
      simp [List.filter_cons, h, ha]
    · simp only [List.filter_cons]
      rw [if_neg h, ih]
      simp only [List.mem_cons]
      constructor
      · exact Or.inr
      · rintro (heq | hm)
        · exact absurd (by rw [← heq]; simp) h
        · exact hm

/-- C10: `projects_of_user` returns exactly the views of the active projects
whose member relation contains the username; a project in which the user is a
member but which has been deactivated is omitted. -/
theorem C10_projects_of_user_only_active (username : String) (st : db.State)
    (v : schema.Project) :
    v ∈ main.projects_of_user username st ↔
      ∃ p, p ∈ st.projects ∧ username ∈ p.members ∧ p.is_active = true ∧
        v = schema.Project.from_db st p := by
  unfold main.projects_of_user
  simp only [List.mem_map, List.mem_filter, Bool.and_eq_true]
  constructor
  · rintro ⟨p, ⟨hp, hmem, hact⟩, rfl⟩
    exact ⟨p, hp, by simpa [List.contains, List.elem_iff] using hmem, hact, rfl⟩
  · rintro ⟨p, hp, hmem, hact, rfl⟩
    exact ⟨p, ⟨hp, by simpa [List.contains, List.elem_iff] using hmem, hact⟩, rfl⟩

/-- C6: `like` fails 404 when the project is missing or inactive, fails 429
when a like fact for (project, username) already exists, and otherwise
appends exactly the one like fact for that pair; on every failure the store
(and in particular the like set) is unchanged. -/
theorem C6_like_cases (env : Env) (id : Nat) (t u : String) (st : db.State)
    (hauth : env.auth t = some u) :
    (db.Project.get st id = none →
      main.like env id (some t) st = .error .notFound) ∧
    (∀ p, db.Project.get st id = some p →
      (({ username := u, project_id := id } : db.Like) ∈ st.likes →
        main.like env id (some t) st = .error .conflict) ∧
      (({ username := u, project_id := id } : db.Like) ∉ st.likes →
        main.like env id (some t) st =
          .ok { st with likes := st.likes ++ [{ username := u, project_id := p.id }] })) ∧
    (∀ e, main.like env id (some t) st = .error e →
      afterState st (main.like env id (some t) st) = st) := by
  refine ⟨?_, ?_, ?_⟩
  · intro hget
    simp [main.like, hauth, hget]
  · intro p hget
    constructor
    · intro hmem
      have hpos := (like_filter_pos_iff st.likes u id).mpr hmem
      simp [main.like, hauth, hget, hpos]
    · intro hmem
      have hpos : ¬ 0 < (st.likes.filter (fun l => l.username == u && l.project_id == id)).length := by
        rw [like_filter_pos_iff]
        exact hmem
      simp [main.like, hauth, hget, hpos]
  · intro e he
    simp [afterState, he]

theorem C6_witness :
    (db.Project.get stC6 0 = none →
      main.like env0 0 (some "tk") stC6 = .error .notFound) ∧
    (∀ p, db.Project.get stC6 0 = some p →
      (({ username := "a", project_id := 0 } : db.Like) ∈ stC6.likes →
        main.like env0 0 (some "tk") stC6 = .error .conflict) ∧
      (({ username := "a", project_id := 0 } : db.Like) ∉ stC6.likes →
        main.like env0 0 (some "tk") stC6 =
          .ok { stC6 with likes := stC6.likes ++ [{ username := "a", project_id := p.id }] })) ∧
    (∀ e, main.like env0 0 (some "tk") stC6 = .error e →
      afterState stC6 (main.like env0 0 (some "tk") stC6) = stC6) :=
  C6_like_cases env0 0 "tk" "a" stC6 rfl

/-- C7 (code bug): `unlike` can only answer 401, 429 or success — it never
looks the project up, so there is no 404 outcome; in particular unliking a
project that does not exist at all yields 429 (conflict), not the 404 the
claim and the route's own `responses` documentation (main.py lines 261-263)
require. -/
theorem C7_unlike_no_not_found :
    (∀ (env : Env) (id : Nat) (token : Option String) (st : db.State),
      main.unlike env id token st = .error .unauthorized ∨
      main.unlike env id token st = .error .conflict ∨
      isOk (main.unlike env id token st) = true) ∧
    main.unlike env0 1 (some "tk") st0 = .error .conflict ∧
    db.Project.get st0 1 = none := by
  refine ⟨?_, rfl, rfl⟩
  intro env id token st
  cases token with
  | none => exact Or.inl rfl
  | some t =>
    cases henv : env.auth t with
    | none => simp [main.unlike, henv]
    | some u =>
      by_cases h :
          (st.likes.filter (fun l => l.username == u && l.project_id == id)).length < 1
      · simp [main.unlike, henv, h]
      · simp [main.unlike, henv, h, isOk]

/-- C8: creating a project whose payload references a skill tag the external
tag check rejects fails with 404, and the store is unchanged: no project row,
membership fact or like fact is committed. -/
theorem C8_create_unknown_tag (env : Env) (pc : schema.ProjectCreate) (t u : String)
    (st : db.State) (tg : Nat) (hauth : env.auth t = some u)
    (htg : tg ∈ pc.skilltags) (hbad : env.tag_exist tg = false) :
    main.create_project env pc (some t) st = .error .notFound ∧
    stepState st (main.create_project env pc (some t) st) = st := by
  have hex : ∃ x ∈ pc.skilltags, env.tag_exist x = false := ⟨tg, htg, hbad⟩
  refine ⟨?_, ?_⟩ <;> simp [main.create_project, hauth, hex, stepState]

theorem C8_witness :
    main.create_project envBad pc8 (some "tk") st0 = .error .notFound ∧
    stepState st0 (main.create_project envBad pc8 (some "tk") st0) = st0 :=
  C8_create_unknown_tag envBad pc8 "tk" "a" st0 1 rfl (by decide) rfl

/-- C9: a successful `create_project` appends exactly one project row, whose
member, announce and admin relations all hold the creating user; the three
tier facts are committed together with the row (one atomic state change), so
no committed state holds the creator in only some of the tiers. -/
theorem C9_create_joins_all_tiers (env : Env) (pc : schema.ProjectCreate) (t u : String)
    (st : db.State) (hauth : env.auth t = some u)
    (htags : ∀ tg ∈ pc.skilltags, env.tag_exist tg = true) :
    ∃ v st', main.create_project env pc (some t) st = .ok (v, st') ∧
      st'.projects = st.projects ++ [pc.newRow u st] ∧
      st'.likes = st.likes ∧
      (pc.newRow u st).id = st.next_id ∧
      (pc.newRow u st).is_active = true ∧
      (pc.newRow u st).members = [u] ∧
      (pc.newRow u st).announce_users = [u] ∧
      (pc.newRow u st).admin_users = [u] ∧
      u ∈ (pc.newRow u st).members ∧
      u ∈ (pc.newRow u st).announce_users ∧
      u ∈ (pc.newRow u st).admin_users := by
  have hno : ¬ ∃ x ∈ pc.skilltags, env.tag_exist x = false := by
    rintro ⟨x, hx, hfx⟩
    rw [htags x hx] at hfx
    cases hfx
  refine ⟨(pc.create u st).1, (pc.create u st).2, ?_, rfl, rfl, rfl, rfl, rfl, rfl, rfl,
    ?_, ?_, ?_⟩
  · simp [main.create_project, hauth, hno]
  · simp [schema.ProjectCreate.newRow]
  · simp [schema.ProjectCreate.newRow]
  · simp [schema.ProjectCreate.newRow]

theorem C9_witness :
    ∃ v st', main.create_project env0 pc0 (some "tk") st0 = .ok (v, st') ∧
      st'.projects = st0.projects ++ [pc0.newRow "a" st0] ∧
      st'.likes = st0.likes ∧
      (pc0.newRow "a" st0).id = st0.next_id ∧
      (pc0.newRow "a" st0).is_active = true ∧
      (pc0.newRow "a" st0).members = ["a"] ∧
      (pc0.newRow "a" st0).announce_users = ["a"] ∧
      (pc0.newRow "a" st0).admin_users = ["a"] ∧
      "a" ∈ (pc0.newRow "a" st0).members ∧
      "a" ∈ (pc0.newRow "a" st0).announce_users ∧
      "a" ∈ (pc0.newRow "a" st0).admin_users :=
  C9_create_joins_all_tiers env0 pc0 "tk" "a" st0 rfl (by simp [pc0])

theorem join_member_success (env : Env) (proj_id : Nat) (pj : schema.ProjectJoin)
    (t actor : String) (st : db.State) (p : db.Project)
    (hauth : env.auth t = some actor) (hexist : env.exist pj.username = true)
    (hget : db.Project.get st proj_id = some p) (hadmin : actor ∈ p.admin_users)
    (hnoconf : main.alreadyJoined pj p = false) :
    main.join_member env proj_id pj (some t) st =
      .ok (st.modifyProject proj_id (main.joinUpd pj)) := by
  simp [main.join_member, hauth, hexist, hget, hadmin, hnoconf]

theorem join_member_conflict (env : Env) (proj_id : Nat) (pj : schema.ProjectJoin)
    (t actor : String) (st : db.State) (p : db.Project)
    (hauth : env.auth t = some actor) (hexist : env.exist pj.username = true)
    (hget : db.Project.get st proj_id = some p) (hadmin : actor ∈ p.admin_users)
    (hconf : main.alreadyJoined pj p = true) :
    main.join_member env proj_id pj (some t) st = .error .conflict := by
  simp [main.join_member, hauth, hexist, hget, hadmin, hconf]

theorem get_after_joinUpd (st : db.State) (proj_id : Nat) (pj : schema.ProjectJoin)
    (p : db.Project) (hget : db.Project.get st proj_id = some p) :
    db.Project.get (st.modifyProject proj_id (main.joinUpd pj)) proj_id =
      some (main.joinUpd pj p) := by
  rw [get_modifyProject st proj_id (main.joinUpd pj) (fun q => rfl) (fun q => rfl), hget]
  rfl

/-- C1: with the join preconditions met (authenticated admin actor, known
target, active project), a join whose target already holds exactly the
requested tier fails with 429 (conflict) and leaves every role set unchanged
(the transaction rolls back); while a join at a higher tier whose implied
lower tiers already hold the target silently deduplicates those insertions
and succeeds, adding only the missing higher tier. -/
theorem C1_exact_tier_conflict_asymmetry (env : Env) (proj_id : Nat)
    (pj : schema.ProjectJoin) (t actor : String) (st : db.State) (p : db.Project)
    (hauth : env.auth t = some actor) (hexist : env.exist pj.username = true)
    (hget : db.Project.get st proj_id = some p) (hadmin : actor ∈ p.admin_users) :
    (main.alreadyJoined pj p = true →
      main.join_member env proj_id pj (some t) st = .error .conflict ∧
      afterState st (main.join_member env proj_id pj (some t) st) = st) ∧
    (pj.type = .ADMIN → pj.username ∈ p.members → pj.username ∈ p.announce_users →
      pj.username ∉ p.admin_users →
      ∃ st' p', main.join_member env proj_id pj (some t) st = .ok st' ∧
        db.Project.get st' proj_id = some p' ∧
        p'.members = p.members ∧ p'.announce_users = p.announce_users ∧
        p'.admin_users = p.admin_users ++ [pj.username]) ∧
    (pj.type = .ANNOUNCE → pj.username ∈ p.members → pj.username ∉ p.announce_users →
      ∃ st' p', main.join_member env proj_id pj (some t) st = .ok st' ∧
        db.Project.get st' proj_id = some p' ∧
        p'.members = p.members ∧
        p'.announce_users = p.announce_users ++ [pj.username] ∧
        p'.admin_users = p.admin_users) := by
  obtain ⟨u, ty⟩ := pj
  refine ⟨?_, ?_, ?_⟩
  · intro hconf
    have h1 := join_member_conflict env proj_id ⟨u, ty⟩ t actor st p hauth hexist hget
      hadmin hconf
    exact ⟨h1, by simp [afterState, h1]⟩
  · rintro rfl hm ha hna
    have hnoconf : main.alreadyJoined ⟨u, .ADMIN⟩ p = false := by
      simp [main.alreadyJoined, List.contains, List.elem_iff]
      exact hna
    have hok := join_member_success env proj_id ⟨u, .ADMIN⟩ t actor st p hauth hexist hget
      hadmin hnoconf
    refine ⟨_, _, hok, get_after_joinUpd st proj_id ⟨u, .ADMIN⟩ p hget, ?_, ?_, ?_⟩
    · simp [main.joinUpd, main.all_type, insertIfAbsent_of_mem hm]
    · simp [main.joinUpd, main.all_type, insertIfAbsent_of_mem ha]
    · simp [main.joinUpd, main.all_type, insertIfAbsent_of_not_mem hna]
  · rintro rfl hm hna
    have hnoconf : main.alreadyJoined ⟨u, .ANNOUNCE⟩ p = false := by
      simp [main.alreadyJoined, List.contains, List.elem_iff]
      exact hna
    have hok := join_member_success env proj_id ⟨u, .ANNOUNCE⟩ t actor st p hauth hexist hget
      hadmin hnoconf
    refine ⟨_, _, hok, get_after_joinUpd st proj_id ⟨u, .ANNOUNCE⟩ p hget, ?_, ?_, ?_⟩
    · simp [main.joinUpd, main.all_type, insertIfAbsent_of_mem hm]
    · simp [main.joinUpd, main.all_type, insertIfAbsent_of_not_mem hna]
    · simp [main.joinUpd, main.all_type]

theorem C1_witness :
    (main.alreadyJoined ⟨"b", .ADMIN⟩ (mkProj 0 "T" ["a", "b"] ["a", "b"] ["a"]) = true →
      main.join_member env0 0 ⟨"b", .ADMIN⟩ (some "tk") stC1 = .error .conflict ∧
      afterState stC1 (main.join_member env0 0 ⟨"b", .ADMIN⟩ (some "tk") stC1) = stC1) ∧
    ((schema.ProjectJoin.mk "b" .ADMIN).type = .ADMIN →
      "b" ∈ (mkProj 0 "T" ["a", "b"] ["a", "b"] ["a"]).members →
      "b" ∈ (mkProj 0 "T" ["a", "b"] ["a", "b"] ["a"]).announce_users →
      "b" ∉ (mkProj 0 "T" ["a", "b"] ["a", "b"] ["a"]).admin_users →
      ∃ st' p', main.join_member env0 0 ⟨"b", .ADMIN⟩ (some "tk") stC1 = .ok st' ∧
        db.Project.get st' 0 = some p' ∧
        p'.members = (mkProj 0 "T" ["a", "b"] ["a", "b"] ["a"]).members ∧
        p'.announce_users = (mkProj 0 "T" ["a", "b"] ["a", "b"] ["a"]).announce_users ∧
        p'.admin_users = (mkProj 0 "T" ["a", "b"] ["a", "b"] ["a"]).admin_users ++ ["b"]) ∧
    ((schema.ProjectJoin.mk "b" .ADMIN).type = .ANNOUNCE →
      "b" ∈ (mkProj 0 "T" ["a", "b"] ["a", "b"] ["a"]).members →
      "b" ∉ (mkProj 0 "T" ["a", "b"] ["a", "b"] ["a"]).announce_users →
      ∃ st' p', main.join_member env0 0 ⟨"b", .ADMIN⟩ (some "tk") stC1 = .ok st' ∧
        db.Project.get st' 0 = some p' ∧
        p'.members = (mkProj 0 "T" ["a", "b"] ["a", "b"] ["a"]).members ∧
        p'.announce_users =
          (mkProj 0 "T" ["a", "b"] ["a", "b"] ["a"]).announce_users ++ ["b"] ∧
        p'.admin_users = (mkProj 0 "T" ["a", "b"] ["a", "b"] ["a"]).admin_users) :=
  C1_exact_tier_conflict_asymmetry env0 0 ⟨"b", .ADMIN⟩ "tk" "a" stC1
    (mkProj 0 "T" ["a", "b"] ["a", "b"] ["a"]) rfl rfl rfl (by decide)

/-- C2: with the join preconditions met and no exact-tier conflict, the join
commits exactly the tier insertions implied by the requested tier: the target
ends up in the member relation for every tier; an ADMIN join also leaves it in
the announce and admin relations; an ANNOUNCE join leaves it in the announce
relation and does not touch the admin relation; a MEMBER join extends only the
member relation — so under the role-inclusion invariant the target is present
only in the member relation — and each individual tier insertion is a no-op
when the target is already present at that tier. -/
theorem C2_join_implied_tiers (env : Env) (proj_id : Nat) (pj : schema.ProjectJoin)
    (t actor : String) (st : db.State) (p : db.Project)
    (hauth : env.auth t = some actor) (hexist : env.exist pj.username = true)
    (hget : db.Project.get st proj_id = some p) (hadmin : actor ∈ p.admin_users)
    (hnoconf : main.alreadyJoined pj p = false) :
    ∃ st' p', main.join_member env proj_id pj (some t) st = .ok st' ∧
      db.Project.get st' proj_id = some p' ∧
      pj.username ∈ p'.members ∧
      (pj.type = .ADMIN →
        pj.username ∈ p'.announce_users ∧ pj.username ∈ p'.admin_users) ∧
      (pj.type = .ANNOUNCE →
        pj.username ∈ p'.announce_users ∧ p'.admin_users = p.admin_users) ∧
      (pj.type = .MEMBER →
        p'.members = p.members ++ [pj.username] ∧
        p'.announce_users = p.announce_users ∧
        p'.admin_users = p.admin_users ∧
        (InvProject p → pj.username ∉ p'.announce_users ∧ pj.username ∉ p'.admin_users)) ∧
      (pj.username ∈ p.members → p'.members = p.members) ∧
      (pj.type ≠ .MEMBER → pj.username ∈ p.announce_users →
        p'.announce_users = p.announce_users) := by
  obtain ⟨u, ty⟩ := pj
  have hok := join_member_success env proj_id ⟨u, ty⟩ t actor st p hauth hexist hget
    hadmin hnoconf
  refine ⟨_, _, hok, get_after_joinUpd st proj_id ⟨u, ty⟩ p hget, ?_, ?_, ?_, ?_, ?_, ?_⟩
  · cases ty <;>
      simp [main.joinUpd, main.all_type, mem_insertIfAbsent]
  · rintro rfl
    constructor <;>
      simp [main.joinUpd, main.all_type, mem_insertIfAbsent]
  · rintro rfl
    refine ⟨?_, ?_⟩
    · simp [main.joinUpd, main.all_type, mem_insertIfAbsent]
    · simp [main.joinUpd, main.all_type]
  · rintro rfl
    have hum : u ∉ p.members := by
      simpa [main.alreadyJoined, List.contains, List.elem_iff] using hnoconf
    refine ⟨?_, ?_, ?_, ?_⟩
    · simp [main.joinUpd, main.all_type, insertIfAbsent_of_not_mem hum]
    · simp [main.joinUpd, main.all_type]
    · simp [main.joinUpd, main.all_type]
    · rintro ⟨h1, h2⟩
      constructor
      · simp only [main.joinUpd, main.all_type]
        intro hin
        simp at hin
        exact hum (h2 u hin)
      · simp only [main.joinUpd, main.all_type]
        intro hin
        simp at hin
        exact hum (h2 u (h1 u hin))
  · intro hm
    cases ty <;>
      simp [main.joinUpd, main.all_type, insertIfAbsent_of_mem hm]
  · intro hty ha
    cases ty
    · exact absurd rfl hty
    · simp [main.joinUpd, main.all_type, insertIfAbsent_of_mem ha]
    · simp [main.joinUpd, main.all_type, insertIfAbsent_of_mem ha]

theorem C2_witness :
    ∃ st' p', main.join_member env0 0 ⟨"c", .MEMBER⟩ (some "tk") stC1 = .ok st' ∧
      db.Project.get st' 0 = some p' ∧
      "c" ∈ p'.members ∧
      ((schema.ProjectJoin.mk "c" .MEMBER).type = .ADMIN →
        "c" ∈ p'.announce_users ∧ "c" ∈ p'.admin_users) ∧
      ((schema.ProjectJoin.mk "c" .MEMBER).type = .ANNOUNCE →
        "c" ∈ p'.announce_users ∧
        p'.admin_users = (mkProj 0 "T" ["a", "b"] ["a", "b"] ["a"]).admin_users) ∧
      ((schema.ProjectJoin.mk "c" .MEMBER).type = .MEMBER →
        p'.members = (mkProj 0 "T" ["a", "b"] ["a", "b"] ["a"]).members ++ ["c"] ∧
        p'.announce_users = (mkProj 0 "T" ["a", "b"] ["a", "b"] ["a"]).announce_users ∧
        p'.admin_users = (mkProj 0 "T" ["a", "b"] ["a", "b"] ["a"]).admin_users ∧
        (InvProject (mkProj 0 "T" ["a", "b"] ["a", "b"] ["a"]) →
          "c" ∉ p'.announce_users ∧ "c" ∉ p'.admin_users)) ∧
      ("c" ∈ (mkProj 0 "T" ["a", "b"] ["a", "b"] ["a"]).members →
        p'.members = (mkProj 0 "T" ["a", "b"] ["a", "b"] ["a"]).members) ∧
      ((schema.ProjectJoin.mk "c" .MEMBER).type ≠ .MEMBER →
        "c" ∈ (mkProj 0 "T" ["a", "b"] ["a", "b"] ["a"]).announce_users →
        p'.announce_users = (mkProj 0 "T" ["a", "b"] ["a", "b"] ["a"]).announce_users) :=
  C2_join_implied_tiers env0 0 ⟨"c", .MEMBER⟩ "tk" "a" stC1
    (mkProj 0 "T" ["a", "b"] ["a", "b"] ["a"]) rfl rfl rfl (by decide) (by decide)

theorem update_project_ok_inv (env : Env) (pu : schema.Project) (t : String)
    (st : db.State) (v : schema.Project) (st' : db.State)
    (hok : main.update_project env pu (some t) st = .ok (v, st')) :
    ∃ username p, env.auth t = some username ∧ db.Project.get st pu.id = some p ∧
      username ∈ p.admin_users ∧
      st' = st.modifyProject pu.id pu.applyUpdate ∧
      v = schema.Project.from_db st' (pu.applyUpdate p) := by
  unfold main.update_project at hok
  dsimp only at hok
  cases hu : env.auth t with
  | none =>
    rw [hu] at hok
    dsimp only at hok
    exact absurd hok (by simp)
  | some username =>
    rw [hu] at hok
    dsimp only at hok
    cases hg : db.Project.get st pu.id with
    | none =>
      rw [hg] at hok
      dsimp only at hok
      exact absurd hok (by simp)
    | some p =>
      rw [hg] at hok
      dsimp only at hok
      by_cases hadm : username ∈ p.admin_users
      · rw [if_pos hadm] at hok
        by_cases htag : pu.skilltags.any (fun tg => env.tag_exist tg == false) = true
        · rw [if_pos htag] at hok
          exact absurd hok (by simp)
        · rw [if_neg htag] at hok
          unfold schema.Project.update at hok
          rw [hg] at hok
          dsimp only at hok
          simp only [Except.ok.injEq, Prod.mk.injEq] at hok
          obtain ⟨h1, h2⟩ := hok
          subst h2
          exact ⟨username, p, rfl, rfl, hadm, rfl, h1.symm⟩
      · rw [if_neg hadm] at hok
        exact absurd hok (by simp)

/-- C5 (amended): a successful `update_project` replaces the mutable metadata
fields (title, subtitle, description, background image, social links,
skill-tag set) **and additionally replaces the member relation with the
payload's member list** (schema.py line 72, `p.members = self.members`),
returning the refreshed view; the announce and admin role sets and the like
set are unchanged. -/
theorem C5_update_frame (env : Env) (pu : schema.Project) (t : String) (st : db.State)
    (v : schema.Project) (st' : db.State)
    (hok : main.update_project env pu (some t) st = .ok (v, st')) :
    ∃ p, db.Project.get st pu.id = some p ∧
      st' = st.modifyProject pu.id pu.applyUpdate ∧
      st'.likes = st.likes ∧
      db.Project.get st' pu.id = some (pu.applyUpdate p) ∧
      (pu.applyUpdate p).title = pu.title ∧
      (pu.applyUpdate p).subtitle = pu.subtitle ∧
      (pu.applyUpdate p).bg_image = pu.bg_image ∧
      (pu.applyUpdate p).description = pu.description ∧
      (pu.applyUpdate p).skilltags = pu.skilltags ∧
      (pu.applyUpdate p).members = pu.members ∧
      (pu.applyUpdate p).announce_users = p.announce_users ∧
      (pu.applyUpdate p).admin_users = p.admin_users ∧
      v = schema.Project.from_db st' (pu.applyUpdate p) ∧
      v.sns = pu.sns := by
  obtain ⟨username, p, hu, hg, hadm, hst, hv⟩ := update_project_ok_inv env pu t st v st' hok
  subst hst
  refine ⟨p, hg, rfl, rfl, ?_, rfl, rfl, rfl, rfl, rfl, rfl, rfl, rfl, hv, ?_⟩
  · rw [get_modifyProject st pu.id pu.applyUpdate (fun q => rfl) (fun q => rfl), hg]
    rfl
  · rw [hv]
    rfl

/-- C5 counterexample: a successful update by admin `a` with payload member
list `["a", "b"]` changes the project's member set from `["a"]` to
`["a", "b"]` — the claim that a successful update leaves the member role set
unchanged is false. -/
theorem C5_counterexample :
    isOk (main.update_project env0 puC5 (some "tk") stC5) = true ∧
    (db.Project.get (stepState stC5 (main.update_project env0 puC5 (some "tk") stC5)) 0).map
      db.Project.members = some ["a", "b"] ∧
    (db.Project.get stC5 0).map db.Project.members = some ["a"] := by
  refine ⟨by decide, by decide, by decide⟩

theorem C5_witness :
    ∃ p, db.Project.get stC5 puC5.id = some p ∧
      stepState stC5 rC5 = stC5.modifyProject puC5.id puC5.applyUpdate ∧
      (stepState stC5 rC5).likes = stC5.likes ∧
      db.Project.get (stepState stC5 rC5) puC5.id = some (puC5.applyUpdate p) ∧
      (puC5.applyUpdate p).title = puC5.title ∧
      (puC5.applyUpdate p).subtitle = puC5.subtitle ∧
      (puC5.applyUpdate p).bg_image = puC5.bg_image ∧
      (puC5.applyUpdate p).description = puC5.description ∧
      (puC5.applyUpdate p).skilltags = puC5.skilltags ∧
      (puC5.applyUpdate p).members = puC5.members ∧
      (puC5.applyUpdate p).announce_users = p.announce_users ∧
      (puC5.applyUpdate p).admin_users = p.admin_users ∧
      viewOf rC5 puC5 = schema.Project.from_db (stepState stC5 rC5) (puC5.applyUpdate p) ∧
      (viewOf rC5 puC5).sns = puC5.sns :=
  C5_update_frame env0 puC5 "tk" stC5 (viewOf rC5 puC5) (stepState stC5 rC5) (by rfl)

theorem invState_of_projects_eq {st st' : db.State} (h : st'.projects = st.projects)
    (hinv : InvState st) : InvState st' :=
  fun p hp => hinv p (h ▸ hp)

theorem invState_modifyProject {st : db.State} {id : Nat} {f : db.Project → db.Project}
    (hf : ∀ q, InvProject q → InvProject (f q)) (hinv : InvState st) :
    InvState (st.modifyProject id f) := by
  intro p hp
  simp only [db.State.modifyProject, List.mem_map] at hp
  obtain ⟨q, hq, he⟩ := hp
  subst he
  by_cases hc : (q.id == id && q.is_active) = true
  · rw [if_pos hc]
    exact hf q (hinv q hq)
  · rw [if_neg hc]
    exact hinv q hq

theorem joinUpd_members (u : String) (ty : schema.MemberType) (q : db.Project) :
    (main.joinUpd ⟨u, ty⟩ q).members = main.insertIfAbsent u q.members := by
  cases ty <;> simp [main.joinUpd, main.all_type]

theorem joinUpd_announce_MEMBER (u : String) (q : db.Project) :
    (main.joinUpd ⟨u, .MEMBER⟩ q).announce_users = q.announce_users := by
  simp [main.joinUpd, main.all_type]

theorem joinUpd_announce_ANNOUNCE (u : String) (q : db.Project) :
    (main.joinUpd ⟨u, .ANNOUNCE⟩ q).announce_users =
      main.insertIfAbsent u q.announce_users := by
  simp [main.joinUpd, main.all_type]

theorem joinUpd_announce_ADMIN (u : String) (q : db.Project) :
    (main.joinUpd ⟨u, .ADMIN⟩ q).announce_users =
      main.insertIfAbsent u q.announce_users := by
  simp [main.joinUpd, main.all_type]

theorem joinUpd_admin_MEMBER (u : String) (q : db.Project) :
    (main.joinUpd ⟨u, .MEMBER⟩ q).admin_users = q.admin_users := by
  simp [main.joinUpd, main.all_type]

theorem joinUpd_admin_ANNOUNCE (u : String) (q : db.Project) :
    (main.joinUpd ⟨u, .ANNOUNCE⟩ q).admin_users = q.admin_users := by
  simp [main.joinUpd, main.all_type]

theorem joinUpd_admin_ADMIN (u : String) (q : db.Project) :
    (main.joinUpd ⟨u, .ADMIN⟩ q).admin_users = main.insertIfAbsent u q.admin_users := by
  simp [main.joinUpd, main.all_type]

theorem joinUpd_preserves_inv (pj : schema.ProjectJoin) (q : db.Project)
    (h : InvProject q) : InvProject (main.joinUpd pj q) := by
  obtain ⟨u, ty⟩ := pj
  obtain ⟨h1, h2⟩ := h
  cases ty with
  | MEMBER =>
    constructor
    · intro a ha
      rw [joinUpd_admin_MEMBER] at ha
      rw [joinUpd_announce_MEMBER]
      exact h1 a ha
    · intro a ha
      rw [joinUpd_announce_MEMBER] at ha
      rw [joinUpd_members, mem_insertIfAbsent]
      exact Or.inl (h2 a ha)
  | ANNOUNCE =>
    constructor
    · intro a ha
      rw [joinUpd_admin_ANNOUNCE] at ha
      rw [joinUpd_announce_ANNOUNCE, mem_insertIfAbsent]
      exact Or.inl (h1 a ha)
    · intro a ha
      rw [joinUpd_announce_ANNOUNCE, mem_insertIfAbsent] at ha
      rw [joinUpd_members, mem_insertIfAbsent]
      rcases ha with ha | rfl
      · exact Or.inl (h2 a ha)
      · exact Or.inr rfl
  | ADMIN =>
    constructor
    · intro a ha
      rw [joinUpd_admin_ADMIN, mem_insertIfAbsent] at ha
      rw [joinUpd_announce_ADMIN, mem_insertIfAbsent]
      rcases ha with ha | rfl
      · exact Or.inl (h1 a ha)
      · exact Or.inr rfl
    · intro a ha
      rw [joinUpd_announce_ADMIN, mem_insertIfAbsent] at ha
      rw [joinUpd_members, mem_insertIfAbsent]
      rcases ha with ha | rfl
      · exact Or.inl (h2 a ha)
      · exact Or.inr rfl

theorem create_preserves_inv (pc : schema.ProjectCreate) (u : String) (st : db.State)
    (hinv : InvState st) : InvState (pc.create u st).2 := by
  intro p hp
  simp only [schema.ProjectCreate.create, List.mem_append, List.mem_singleton] at hp
  rcases hp with hp | rfl
  · exact hinv p hp
  · refine ⟨?_, ?_⟩ <;> intro a ha <;>
      simpa [schema.ProjectCreate.newRow] using ha

theorem join_member_result_cases (env : Env) (pid : Nat) (pj : schema.ProjectJoin)
    (tk : Option String) (st : db.State) :
    main.join_member env pid pj tk st = .ok (st.modifyProject pid (main.joinUpd pj)) ∨
    ∃ e, main.join_member env pid pj tk st = .error e := by
  unfold main.join_member
  cases tk with
  | none => exact Or.inr ⟨_, rfl⟩
  | some t =>
    dsimp only
    cases env.auth t with
    | none => exact Or.inr ⟨_, rfl⟩
    | some username =>
      dsimp only
      by_cases hex : env.exist pj.username = false
      · rw [if_pos hex]
        exact Or.inr ⟨_, rfl⟩
      · rw [if_neg hex]
        cases db.Project.get st pid with
        | none => exact Or.inr ⟨_, rfl⟩
        | some p =>
          dsimp only
          by_cases hadm : username ∈ p.admin_users
          · rw [if_pos hadm]
            by_cases hcf : main.alreadyJoined pj p = true
            · rw [if_pos hcf]
              exact Or.inr ⟨_, rfl⟩
            · rw [if_neg hcf]
              exact Or.inl rfl
          · rw [if_neg hadm]
            exact Or.inr ⟨_, rfl⟩

theorem like_projects_unchanged (env : Env) (id : Nat) (tk : Option String)
    (st : db.State) : (afterState st (main.like env id tk st)).projects = st.projects := by
  unfold main.like
  cases tk with
  | none => rfl
  | some t =>
    dsimp only
    cases env.auth t with
    | none => rfl
    | some username =>
      dsimp only
      cases db.Project.get st id with
      | none => rfl
      | some p =>
        dsimp only
        by_cases hc :
            0 < (st.likes.filter (fun l => l.username == username && l.project_id == id)).length
        · rw [if_pos hc]
          rfl
        · rw [if_neg hc]
          rfl

theorem unlike_projects_unchanged (env : Env) (id : Nat) (tk : Option String)
    (st : db.State) : (afterState st (main.unlike env id tk st)).projects = st.projects := by
  unfold main.unlike
  cases tk with
  | none => rfl
  | some t =>
    dsimp only
    cases env.auth t with
    | none => rfl
    | some username =>
      dsimp only
      by_cases hc :
          (st.likes.filter (fun l => l.username == username && l.project_id == id)).length < 1
      · rw [if_pos hc]
        rfl
      · rw [if_neg hc]
        rfl

theorem delete_project_result_cases (env : Env) (id : Nat) (tk : Option String)
    (st : db.State) :
    afterState st (main.delete_project env id tk st) = st ∨
    afterState st (main.delete_project env id tk st) =
      st.modifyProject id (fun q => { q with is_active := false }) := by
  unfold main.delete_project
  cases db.Project.get st id with
  | none => exact Or.inl rfl
  | some p =>
    dsimp only
    cases tk with
    | none => exact Or.inl rfl
    | some t =>
      dsimp only
      cases env.auth t with
      | none => exact Or.inl rfl
      | some username =>
        dsimp only
        by_cases hadm : username ∈ p.admin_users
        · rw [if_pos hadm]
          exact Or.inr rfl
        · rw [if_neg hadm]
          exact Or.inl rfl

theorem create_project_state_cases (env : Env) (pc : schema.ProjectCreate)
    (tk : Option String) (st : db.State) :
    stepState st (main.create_project env pc tk st) = st ∨
    ∃ u, stepState st (main.create_project env pc tk st) = (pc.create u st).2 := by
  unfold main.create_project
  cases tk with
  | none => exact Or.inl rfl
  | some t =>
    dsimp only
    cases env.auth t with
    | none => exact Or.inl rfl
    | some username =>
      dsimp only
      by_cases hc : pc.skilltags.any (fun tg => env.tag_exist tg == false) = true
      · rw [if_pos hc]
        exact Or.inl rfl
      · rw [if_neg hc]
        exact Or.inr ⟨username, rfl⟩

theorem applyOp_preserves_inv (env : Env) (op : Op) (st : db.State)
    (hinv : InvState st) : InvState (applyOp env op st) := by
  cases op with
  | create pc tk =>
    rcases create_project_state_cases env pc tk st with h | ⟨u, h⟩
    · rw [applyOp, h]
      exact hinv
    · rw [applyOp, h]
      exact create_preserves_inv pc u st hinv
  | join pid pj tk =>
    rcases join_member_result_cases env pid pj tk st with h | ⟨e, h⟩
    · rw [applyOp, h]
      exact invState_modifyProject (joinUpd_preserves_inv pj) hinv
    · rw [applyOp, h]
      exact hinv
  | like id tk =>
    exact invState_of_projects_eq (like_projects_unchanged env id tk st) hinv
  | unlike id tk =>
    exact invState_of_projects_eq (unlike_projects_unchanged env id tk st) hinv
  | deactivate id tk =>
    rcases delete_project_result_cases env id tk st with h | h
    · rw [applyOp, h]
      exact hinv
    · rw [applyOp, h]
      exact invState_modifyProject (fun q hq => hq) hinv

/-- C3 (amended): the role inclusion admin_users ⊆ announce_users ⊆ members
holds for every project after every sequence of create, join, like, unlike and
deactivate calls, successful or rolled back, from any store satisfying it.
(`update_project` is excluded: a successful update overwrites the member
relation with the payload's member list and can break the inclusion — see the
counterexample.) -/
theorem C3_inv_preserved (env : Env) (ops : List Op) (st : db.State)
    (hinv : InvState st) : InvState (applyOps env ops st) := by
  induction ops generalizing st with
  | nil => exact hinv
  | cons op ops ih => exact ih (applyOp env op st) (applyOp_preserves_inv env op st hinv)

theorem C3_witness :
    InvState (applyOps env0
      [Op.create pc0 (some "tk"), Op.join 0 ⟨"b", .ADMIN⟩ (some "tk"),
        Op.like 0 (some "tk"), Op.unlike 0 (some "tk"), Op.deactivate 0 (some "tk")] st0) :=
  C3_inv_preserved env0
    [Op.create pc0 (some "tk"), Op.join 0 ⟨"b", .ADMIN⟩ (some "tk"),
      Op.like 0 (some "tk"), Op.unlike 0 (some "tk"), Op.deactivate 0 (some "tk")] st0
    (by decide)

/-- C3 counterexample: starting from the empty store, user `a` successfully
creates a project (holding all three tiers) and then successfully updates it
with a payload whose member list is empty; afterwards the project's admin set
is `["a"]` while its member set is `[]`, so admin_users ⊆ members fails. -/
theorem C3_counterexample :
    isOk (main.create_project env0 pc0 (some "tk") st0) = true ∧
    isOk (main.update_project env0 pu0 (some "tk") exC3st1) = true ∧
    ¬ InvState exC3st2 := by
  refine ⟨by decide, by decide, by decide⟩

/-- C4: the search ranks exactly the active projects (a permutation of them),
sorted ascending by Levenshtein distance from the query with ties broken by
project id ascending (so the order is a deterministic function of the data),
then skips `offset` entries and takes `limit` entries; any offset at or beyond
the number of matches yields the empty sequence; and on the spec's fixture
(titles Foo, Foob, Bar) the query Foo with limit 2, offset 0 returns the views
of Foo then Foob. -/
theorem C4_search_ranking (title : String) (limit offset : Nat) (st : db.State) :
    List.Sorted (schema.rankKeyLe title) (schema.searchRanked title st) ∧
    (schema.searchRanked title st).Perm (schema.searchActive st) ∧
    schema.ProjectSearchResult.search title limit offset st =
      (((schema.searchRanked title st).drop offset).take limit).map
        (schema.Project.from_db st) ∧
    (∀ k : Nat, schema.ProjectSearchResult.search title limit
        ((schema.searchActive st).length + k) st = []) ∧
    schema.ProjectSearchResult.search "Foo" 2 0 stFoo =
      [schema.Project.from_db stFoo pFoo, schema.Project.from_db stFoo pFoob] := by
  refine ⟨List.sorted_insertionSort _ _, List.perm_insertionSort _ _, rfl, ?_, by decide⟩
  intro k
  have hlen : (schema.searchRanked title st).length = (schema.searchActive st).length :=
    (List.perm_insertionSort _ _).length_eq
  have hdrop : (schema.searchRanked title st).drop
      ((schema.searchActive st).length + k) = [] := by
    apply List.drop_eq_nil_of_le
    omega
  simp [schema.ProjectSearchResult.search, hdrop]
